import Mathlib

/-!
Verification of the bookmark-syncer synchronization engine.

The definitions below shallowly embed the TypeScript sources:
`core/sync/lock-manager.ts`, `core/sync/strategies/push-strategy.ts`,
and `infrastructure/utils/compression.ts` (which also contains the
WebDAV client `listFiles`).  Asynchronous collaborator calls are
embedded as explicit inputs (an environment record), JavaScript
exceptions as `Except`/`Option` values, and observable remote/persisted
effects as an explicit event trace.
-/

namespace BookmarkSyncer

/-! ### Sync lock (`core/sync/lock-manager.ts`) -/

/-- Modelled from the spec: `LOCK_TIMEOUT_MS` is imported from
`core/sync/types.ts`, which is not among the provided sources; §4.7 of
the spec fixes the timeout at 60 s. -/
def LOCK_TIMEOUT_MS : Int := 60000

/-- The stored lock record (`SyncLock` in `types.ts`, shape restated at
§3 of the spec: `{ holder, timestamp, lockId }`). -/
structure SyncLock where
  holder : String
  timestamp : Int
  lockId : String
deriving DecidableEq

/-- In-memory instance state plus the persisted `browser.storage.local`
record under `SYNC_LOCK_KEY`.  `stored = none` means no lock record. -/
structure LockMgrState where
  activeLockId : Option String
  stored : Option SyncLock
deriving DecidableEq

/-- JavaScript truthiness of `this.activeLockId` (a `string | null`):
`null` and the empty string are falsy. -/
def optTruthy : Option String → Bool
  | none => false
  | some a => a ≠ ""

/-- `SyncLockManager.release` (lock-manager.ts lines 83–119), with the
storage read/remove embedded as state passing.  The `catch` arm of the
source wraps storage failures, which the pure embedding does not have. -/
def release (s : LockMgrState) (holder : String) : LockMgrState :=
  match s.stored with
  | none => { activeLockId := none, stored := none }
  | some lk =>
    if lk.holder ≠ holder then s
    else if optTruthy s.activeLockId ∧ lk.lockId ≠ s.activeLockId.getD "" then
      { activeLockId := none, stored := some lk }
    else
      { activeLockId := none, stored := none }

/-- The lock id generated at lock-manager.ts line 48:
`` `${holder}_${Date.now()}_${Math.random().toString(36).slice(2)}` ``.
The random suffix is an input. -/
def mkLockId (holder : String) (now : Int) (rand : String) : String :=
  holder ++ "_" ++ toString now ++ "_" ++ rand

/-- Per-call parameters of one `acquire` execution: the caller label,
the clock value and the random lock-id suffix. -/
structure ProcParams where
  holder : String
  now : Int
  rand : String
deriving DecidableEq

/-- The generated lock id of one `acquire` call. -/
def pid (p : ProcParams) : String := mkLockId p.holder p.now p.rand

/-- Control point of one `acquire` call, cut at its `await` suspension
points: `start` = before the initial storage read; `ready` = passed the
existing-lock check, about to write; `written` = wrote its lock, about
to re-read and verify; `done r` = returned `r`. -/
inductive Phase where
  | start
  | ready
  | written
  | done (res : Bool)
deriving DecidableEq

/-- One atomic step of `SyncLockManager.acquire` (lock-manager.ts lines
23–76) against the shared stored lock.  Each step is the code between
two `await` suspension points: read-and-check (lines 25–45), write
(line 56), re-read-and-verify (lines 59–71). -/
def procStep (p : ProcParams) (ph : Phase) (store : Option SyncLock) :
    Phase × Option SyncLock :=
  match ph with
  | .start =>
    match store with
    | some lk =>
      if p.now - lk.timestamp < LOCK_TIMEOUT_MS then (.done false, store)
      else (.ready, store)
    | none => (.ready, store)
  | .ready => (.written, some ⟨p.holder, p.now, pid p⟩)
  | .written =>
    match store with
    | some lk => (.done (lk.lockId = pid p), store)
    | none => (.done false, store)
  | .done r => (.done r, store)

/-- An uninterfered `acquire`: the three steps of `procStep` run
back-to-back with no concurrent writer. -/
def acquireSolo (store : Option SyncLock) (p : ProcParams) :
    Phase × Option SyncLock :=
  let s1 := procStep p .start store
  let s2 := procStep p s1.1 s1.2
  procStep p s2.1 s2.2

/-! ### Claim theorems: release (C1, C10) and sequential acquire (C2) -/

/-- C1: `release h` leaves the stored record in place whenever the
remembered `activeLockId` is known and differs from the stored lock id,
or the stored holder differs from `h`; it is a storage no-op when no
record exists; and it removes the record only when the holder matches
and the remembered id is absent or equal to the stored one. -/
theorem release_refusal_spec (s : LockMgrState) (h : String) :
    ((∃ lk a, s.stored = some lk ∧ s.activeLockId = some a ∧ a ≠ "" ∧
        a ≠ lk.lockId) → (release s h).stored = s.stored) ∧
    ((∃ lk, s.stored = some lk ∧ lk.holder ≠ h) →
        (release s h).stored = s.stored) ∧
    (s.stored = none → (release s h).stored = none) ∧
    ((release s h).stored = none → ∀ lk, s.stored = some lk →
        lk.holder = h ∧ (s.activeLockId.getD "" = "" ∨
          s.activeLockId.getD "" = lk.lockId)) := by
  refine ⟨?_, ?_, ?_, ?_⟩
  · rintro ⟨lk, a, hst, hact, hne, hneq⟩
    by_cases hh : lk.holder = h
    · simp [release, hst, hact, optTruthy, hne, hh, Ne.symm hneq]
    · simp [release, hst, hh]
  · rintro ⟨lk, hst, hh⟩
    simp [release, hst, hh]
  · intro hst
    simp [release, hst]
  · intro hrel lk hst
    simp only [release, hst] at hrel
    by_cases hh : lk.holder = h
    · refine ⟨hh, ?_⟩
      by_cases htr : optTruthy s.activeLockId = true
      · by_cases hid : lk.lockId = s.activeLockId.getD ""
        · right; exact hid.symm
        · simp [hh, htr, hid] at hrel
      · left
        cases hact : s.activeLockId with
        | none => simp [hact]
        | some a =>
          rw [hact] at htr
          have ha : a = "" := by simpa [optTruthy] using htr
          simp [hact, ha]
    · simp [hh, hst] at hrel

/-- Witness for `release_refusal_spec` at concrete states. -/
theorem release_refusal_spec_witness :
    (release ⟨some "x", some ⟨"manual", 0, "y"⟩⟩ "manual").stored =
      some ⟨"manual", 0, "y"⟩ ∧
    (release ⟨some "y", some ⟨"manual", 0, "y"⟩⟩ "manual").stored = none := by
  constructor
  · exact (release_refusal_spec ⟨some "x", some ⟨"manual", 0, "y"⟩⟩ "manual").1
      ⟨⟨"manual", 0, "y"⟩, "x", rfl, rfl, by decide, by decide⟩
  · have := (release_refusal_spec ⟨some "y", some ⟨"manual", 0, "y"⟩⟩ "manual")
    decide

/-- C10: the lock-id-mismatch refusal arm resets the remembered
`activeLockId` to `none` while keeping the stored record, so an
immediately following `release` by the same instance verifies the
holder only and removes the record of the newer acquisition. -/
theorem release_mismatch_then_release_removes (s : LockMgrState)
    (lk : SyncLock) (a h : String) (hst : s.stored = some lk)
    (hact : s.activeLockId = some a) (hatr : a ≠ "")
    (hne : a ≠ lk.lockId) (hh : lk.holder = h) :
    release s h = { activeLockId := none, stored := some lk } ∧
    release (release s h) h = { activeLockId := none, stored := none } := by
  have h1 : release s h = { activeLockId := none, stored := some lk } := by
    simp [release, hst, hact, hh, optTruthy, hatr, Ne.symm hne]
  refine ⟨h1, ?_⟩
  rw [h1]
  simp [release, hh, optTruthy]

/-- Witness for `release_mismatch_then_release_removes`. -/
theorem release_mismatch_then_release_removes_witness :
    release ⟨some "x", some ⟨"auto", 5, "y"⟩⟩ "auto" =
      { activeLockId := none, stored := some ⟨"auto", 5, "y"⟩ } ∧
    release (release ⟨some "x", some ⟨"auto", 5, "y"⟩⟩ "auto") "auto" =
      { activeLockId := none, stored := none } :=
  release_mismatch_then_release_removes ⟨some "x", some ⟨"auto", 5, "y"⟩⟩
    ⟨"auto", 5, "y"⟩ "x" "auto" rfl rfl (by decide) (by decide) rfl

/-- C2: with a stored lock whose age is under `LOCK_TIMEOUT_MS`,
`acquire` returns false and leaves the store untouched; with an expired
stored lock it forcibly writes a fresh lock and returns true, no
`release` having been called. -/
theorem acquire_timeout_spec (lk : SyncLock) (p : ProcParams) :
    (p.now - lk.timestamp < LOCK_TIMEOUT_MS →
      acquireSolo (some lk) p = (.done false, some lk)) ∧
    (LOCK_TIMEOUT_MS ≤ p.now - lk.timestamp →
      acquireSolo (some lk) p =
        (.done true, some ⟨p.holder, p.now, pid p⟩)) := by
  constructor
  · intro hage
    simp [acquireSolo, procStep, hage]
  · intro hage
    have hlt : ¬ p.now - lk.timestamp < LOCK_TIMEOUT_MS := not_lt.mpr hage
    simp [acquireSolo, procStep, hlt]

/-- Witness for `acquire_timeout_spec`: a 30 s old lock blocks the
acquire; a 61 s old lock is forcibly overwritten. -/
theorem acquire_timeout_spec_witness :
    acquireSolo (some ⟨"auto", 0, "old"⟩) ⟨"manual", 30000, "r"⟩ =
      (.done false, some ⟨"auto", 0, "old"⟩) ∧
    acquireSolo (some ⟨"auto", 0, "old"⟩) ⟨"manual", 61000, "r"⟩ =
      (.done true, some ⟨"manual", 61000, pid ⟨"manual", 61000, "r"⟩⟩) :=
  ⟨(acquire_timeout_spec ⟨"auto", 0, "old"⟩ ⟨"manual", 30000, "r"⟩).1
      (by decide),
   (acquire_timeout_spec ⟨"auto", 0, "old"⟩ ⟨"manual", 61000, "r"⟩).2
      (by decide)⟩

/-! ### Two concurrent `acquire` calls (C8)

Two instances of `SyncLockManager.acquire` interleave at their `await`
suspension points over the shared stored lock; a schedule picks which
call steps next (`true` = call A, `false` = call B). -/

/-- Shared store plus the control points of the two concurrent
`acquire` calls. -/
structure Sys2 where
  store : Option SyncLock
  pa : ProcParams
  pb : ProcParams
  pha : Phase
  phb : Phase
deriving DecidableEq

/-- Step the chosen call once. -/
def sys2Step (c : Bool) (s : Sys2) : Sys2 :=
  if c then
    let r := procStep s.pa s.pha s.store
    { s with pha := r.1, store := r.2 }
  else
    let r := procStep s.pb s.phb s.store
    { s with phb := r.1, store := r.2 }

/-- Run a whole schedule. -/
def run2 (sched : List Bool) (s : Sys2) : Sys2 :=
  sched.foldl (fun s c => sys2Step c s) s

/-- The step about to be taken is a verify re-read that happens after
the other call has already written (the race window the 50 ms settle
delay targets): whenever a call in phase `written` steps, the other
call is in phase `written` or `done`. -/
def safeStep (s : Sys2) (c : Bool) : Bool :=
  let mine := if c then s.pha else s.phb
  let other := if c then s.phb else s.pha
  match mine with
  | .written =>
    match other with
    | .written => true
    | .done _ => true
    | _ => false
  | _ => true

/-- Every verify re-read in the schedule happens after both writes. -/
def safeTrace (s : Sys2) : List Bool → Bool
  | [] => true
  | c :: rest => safeStep s c && safeTrace (sys2Step c s) rest

/-- `done true`. -/
def wonT (ph : Phase) : Prop := ph = .done true

/-- Invariant of the two-call system, assuming the generated lock ids
differ: at most one call has returned true; a call that returned true
while the other is still in `written` left its own id in the store; and
no call returns true before the other reaches `written`/`done` in a
safe trace. -/
def Inv2 (s : Sys2) : Prop :=
  ¬(wonT s.pha ∧ wonT s.phb) ∧
  (wonT s.pha → s.phb = .written →
    ∃ lk, s.store = some lk ∧ lk.lockId = pid s.pa) ∧
  (wonT s.phb → s.pha = .written →
    ∃ lk, s.store = some lk ∧ lk.lockId = pid s.pb) ∧
  ((s.pha = .start ∨ s.pha = .ready) → ¬wonT s.phb) ∧
  ((s.phb = .start ∨ s.phb = .ready) → ¬wonT s.pha)

theorem inv2_init (s : Sys2) (ha : s.pha = .start) (hb : s.phb = .start) :
    Inv2 s := by
  refine ⟨?_, ?_, ?_, ?_, ?_⟩ <;> simp [wonT, ha, hb]

theorem inv2_step (s : Sys2) (c : Bool) (hid : pid s.pa ≠ pid s.pb)
    (hinv : Inv2 s) (hsafe : safeStep s c = true) : Inv2 (sys2Step c s) := by
  obtain ⟨h1, h2, h3, h4, h5⟩ := hinv
  cases c
  · -- step call B
    simp only [sys2Step, if_neg Bool.false_ne_true]
    cases hphb : s.phb with
    | start =>
      cases hstore : s.store with
      | none =>
        refine ⟨?_, ?_, ?_, ?_, ?_⟩ <;>
          simp_all [procStep, wonT, Inv2]
      | some lk =>
        by_cases hage : s.pb.now - lk.timestamp < LOCK_TIMEOUT_MS
        · refine ⟨?_, ?_, ?_, ?_, ?_⟩ <;>
            simp_all [procStep, wonT, Inv2, if_pos hage]
        · refine ⟨?_, ?_, ?_, ?_, ?_⟩ <;>
            simp_all [procStep, wonT, Inv2, if_neg hage]
    | ready =>
      -- B writes its own lock
      have hnb : ¬wonT s.pha := h5 (Or.inr hphb)
      refine ⟨?_, ?_, ?_, ?_, ?_⟩ <;>
        simp_all [procStep, wonT, Inv2]
    | written =>
      -- B verifies; safety: A is written or done
      simp only [safeStep, hphb, if_neg Bool.false_ne_true] at hsafe
      cases hstore : s.store with
      | none =>
        refine ⟨?_, ?_, ?_, ?_, ?_⟩ <;>
          simp_all [procStep, wonT, Inv2]
      | some lk =>
        by_cases hwin : lk.lockId = pid s.pb
        · -- B returns true: A cannot already have returned true
          have hnA : ¬wonT s.pha := by
            intro hA
            cases hphA : s.pha with
            | written =>
              rw [hphA] at hA; exact absurd hA (by simp [wonT])
            | done r =>
              cases r with
              | true =>
                -- A done true while B was written: store holds A's id
                obtain ⟨lk', hlk', hida⟩ := h2 (by simp [wonT, hphA]) hphb
                rw [hstore] at hlk'
                cases hlk'
                exact hid (hida ▸ hwin ▸ rfl)
              | false => rw [hphA] at hA; exact absurd hA (by simp [wonT])
            | start => rw [hphA] at hA; exact absurd hA (by simp [wonT])
            | ready => rw [hphA] at hA; exact absurd hA (by simp [wonT])
          have hother : s.pha = .written ∨ s.pha = Phase.done false := by
            cases hphA : s.pha with
            | written => exact Or.inl rfl
            | done r =>
              cases r with
              | true => exact absurd (by simp [wonT, hphA]) hnA
              | false => exact Or.inr rfl
            | start => rw [hphA] at hsafe; exact absurd hsafe (by decide)
            | ready => rw [hphA] at hsafe; exact absurd hsafe (by decide)
          rcases hother with hphA | hphA <;>
            refine ⟨?_, ?_, ?_, ?_, ?_⟩ <;>
            simp_all [procStep, wonT, Inv2]
        · refine ⟨?_, ?_, ?_, ?_, ?_⟩ <;>
            simp_all [procStep, wonT, Inv2]
    | done r =>
      refine ⟨?_, ?_, ?_, ?_, ?_⟩ <;>
        simp_all [procStep, wonT, Inv2]
  · -- step call A (symmetric)
    simp only [sys2Step, if_pos rfl]
    cases hpha : s.pha with
    | start =>
      cases hstore : s.store with
      | none =>
        refine ⟨?_, ?_, ?_, ?_, ?_⟩ <;>
          simp_all [procStep, wonT, Inv2]
      | some lk =>
        by_cases hage : s.pa.now - lk.timestamp < LOCK_TIMEOUT_MS
        · refine ⟨?_, ?_, ?_, ?_, ?_⟩ <;>
            simp_all [procStep, wonT, Inv2, if_pos hage]
        · refine ⟨?_, ?_, ?_, ?_, ?_⟩ <;>
            simp_all [procStep, wonT, Inv2, if_neg hage]
    | ready =>
      have hnb : ¬wonT s.phb := h4 (Or.inr hpha)
      refine ⟨?_, ?_, ?_, ?_, ?_⟩ <;>
        simp_all [procStep, wonT, Inv2]
    | written =>
      simp only [safeStep, hpha, if_pos rfl] at hsafe
      cases hstore : s.store with
      | none =>
        refine ⟨?_, ?_, ?_, ?_, ?_⟩ <;>
          simp_all [procStep, wonT, Inv2]
      | some lk =>
        by_cases hwin : lk.lockId = pid s.pa
        · have hnB : ¬wonT s.phb := by
            intro hB
            cases hphB : s.phb with
            | written =>
              rw [hphB] at hB; exact absurd hB (by simp [wonT])
            | done r =>
              cases r with
              | true =>
                obtain ⟨lk', hlk', hidb⟩ := h3 (by simp [wonT, hphB]) hpha
                rw [hstore] at hlk'
                cases hlk'
                exact hid (hwin ▸ hidb ▸ rfl)
              | false => rw [hphB] at hB; exact absurd hB (by simp [wonT])
            | start => rw [hphB] at hB; exact absurd hB (by simp [wonT])
            | ready => rw [hphB] at hB; exact absurd hB (by simp [wonT])
          have hother : s.phb = .written ∨ s.phb = Phase.done false := by
            cases hphB : s.phb with
            | written => exact Or.inl rfl
            | done r =>
              cases r with
              | true => exact absurd (by simp [wonT, hphB]) hnB
              | false => exact Or.inr rfl
            | start => rw [hphB] at hsafe; exact absurd hsafe (by decide)
            | ready => rw [hphB] at hsafe; exact absurd hsafe (by decide)
          rcases hother with hphB | hphB <;>
            refine ⟨?_, ?_, ?_, ?_, ?_⟩ <;>
            simp_all [procStep, wonT, Inv2]
        · refine ⟨?_, ?_, ?_, ?_, ?_⟩ <;>
            simp_all [procStep, wonT, Inv2]
    | done r =>
      refine ⟨?_, ?_, ?_, ?_, ?_⟩ <;>
        simp_all [procStep, wonT, Inv2]

theorem inv2_run (sched : List Bool) (s : Sys2)
    (hid : pid s.pa ≠ pid s.pb) (hinv : Inv2 s)
    (hsafe : safeTrace s sched = true) : Inv2 (run2 sched s) := by
  induction sched generalizing s with
  | nil => exact hinv
  | cons c rest ih =>
    simp only [safeTrace, Bool.and_eq_true] at hsafe
    have hid' : pid (sys2Step c s).pa ≠ pid (sys2Step c s).pb := by
      cases c <;> simp [sys2Step, hid]
    exact ih (sys2Step c s) hid' (inv2_step s c hid hinv hsafe.1) hsafe.2

/-- A concrete race: both calls read an empty store, call A writes and
verifies before call B writes, then B writes and verifies. -/
def sys2Ex : Sys2 :=
  { store := none
    pa := ⟨"manual", 1000, "ra"⟩
    pb := ⟨"auto-sync", 1000, "rb"⟩
    pha := .start
    phb := .start }

/-- C8 counterexample: in the interleaving A-read, B-read, A-write,
A-verify, B-write, B-verify both `acquire` calls return true, although
their generated lock ids differ — the claimed "at most one returns
true" fails on the code for this schedule. -/
theorem acquire_race_both_true_counterexample :
    pid sys2Ex.pa ≠ pid sys2Ex.pb ∧
    (run2 [true, false, true, true, false, false] sys2Ex).pha =
      .done true ∧
    (run2 [true, false, true, true, false, false] sys2Ex).phb =
      .done true := by
  decide

/-- C8 amended: a call returns true only if the stored lock id at its
re-read is its own, so in every interleaving in which each verify
re-read happens after both writes — the race the settle delay targets —
at most one of two concurrent `acquire` calls with distinct generated
lock ids returns true. -/
theorem acquire_race_safe_at_most_one (s : Sys2) (sched : List Bool)
    (hid : pid s.pa ≠ pid s.pb) (ha : s.pha = .start)
    (hb : s.phb = .start) (hsafe : safeTrace s sched = true) :
    ¬(wonT (run2 sched s).pha ∧ wonT (run2 sched s).phb) :=
  (inv2_run sched s hid (inv2_init s ha hb) hsafe).1

/-- Witness for `acquire_race_safe_at_most_one`: the schedule A-read,
B-read, A-write, B-write, A-verify, B-verify is safe, and then not
both calls return true. -/
theorem acquire_race_safe_at_most_one_witness :
    safeTrace sys2Ex [true, false, true, false, true, false] = true ∧
    ¬(wonT (run2 [true, false, true, false, true, false] sys2Ex).pha ∧
      wonT (run2 [true, false, true, false, true, false] sys2Ex).phb) :=
  ⟨by decide,
   acquire_race_safe_at_most_one sys2Ex [true, false, true, false, true, false]
     (by decide) rfl rfl (by decide)⟩

/-! ### Push strategy (`core/sync/strategies/push-strategy.ts`)

`smartPush` is embedded as a pure function from an environment — the
results every collaborator call would return, with `Except`/`Option`
values standing for thrown JavaScript errors — to the returned
`SyncResult` together with the trace of observable mutating calls. -/

mutual

/-- Modelled from the spec: `BookmarkNode` (§3) as far as the push
strategy needs it — a node with a `url` is a bookmark leaf, a node with
children is a folder.  The full type lives in `types.ts`, not among the
provided sources.  The children array is represented by the mutual
`BookmarkForest` (isomorphic to a list of nodes) so that recursion over
trees is structural. -/
inductive BookmarkNode where
  | node (title : String) (url : Option String) (children : BookmarkForest)

/-- A bookmark-node array. -/
inductive BookmarkForest where
  | nil
  | cons (head : BookmarkNode) (tail : BookmarkForest)

end

/-- The empty-array test `backup.data.length === 0`. -/
def BookmarkForest.isEmpty : BookmarkForest → Bool
  | .nil => true
  | .cons _ _ => false

mutual

/-- Contribution of one node to `countBookmarks`. -/
def countNode : BookmarkNode → Nat
  | .node _ u cs => (if u.isSome then 1 else 0) + countBookmarks cs

/-- Modelled from the spec: `countBookmarks` (§4.5, `comparator.ts` not
among the provided sources) — the recursive count of URL-bearing leaf
nodes; folders contribute 0 directly. -/
def countBookmarks : BookmarkForest → Nat
  | .nil => 0
  | .cons n rest => countNode n + countBookmarks rest

end

/-- JavaScript `String.prototype.endsWith`, written over character
lists so that it evaluates by kernel reduction. -/
def strEndsWith (s post : String) : Bool :=
  s.toList.reverse.take post.toList.length == post.toList.reverse

/-- A parsed cloud backup as the push strategy reads it:
`cloudData.metadata?.timestamp` (absent → `|| 0`) and the bookmark
array. -/
structure CloudBackup where
  metadataTimestamp : Option Int
  data : BookmarkForest

/-- `BackupFileInfo` (§3): the most recently written remote file. -/
structure BackupFileInfo where
  fileName : String
  filePath : String
  createdAt : Int
  revisionNumber : Nat

/-- `SyncResult` as the strategies return it. -/
structure SyncResult where
  success : Bool
  action : String
  message : String
deriving DecidableEq

/-- Observable mutating effects of one `smartPush` run, in call order.
Read-only calls (tree read, cloud fetches) are not traced; the claims
quantify over writes. -/
inductive Ev where
  | snapshot
  | createDir (path : String)
  | putFile (path : String)
  | deleteFile (path : String)
  | cleanOldBackups
  | saveBackupInfo (fileName filePath : String) (createdAt : Int)
      (rev : Nat)
  | setSyncState (type : String)
  | clearListCache
  | releaseLock (holder : String)
deriving DecidableEq

/-- `STORAGE_CONSTANTS.BACKUP_DIR` (storage constants are not among the
provided sources; the concrete directory name does not matter to any
claim, only that all paths are formed from it). -/
def DIR : String := "BookmarkSyncer"

/-- Collaborator results for one `smartPush` execution.  An
`Except Unit _` field is a call whose failure is caught inside the
cloud-state check (lines 173–176: failures there fall through to the
upload).  An `Option String` field is `none` when the call succeeds and
`some msg` when it throws `msg`, to be caught by the outer catch
(lines 311–319) or a local catch. -/
structure PushEnv where
  /-- `navigator.onLine` (line 38). -/
  online : Bool
  /-- result of `acquireSyncLock` when attempted (line 45). -/
  lockAcquired : Bool
  /-- `bookmarkRepository.getTree()` (line 57). -/
  localTree : BookmarkForest
  /-- `fileManager.getLatestBackupFile` (line 83): thrown / absent /
  found path. -/
  latestBackupPath : Except Unit (Option String)
  /-- `queueManager.getFileWithDedup` + `JSON.parse` (lines 85–93):
  `.error` = fetch threw or content unparsable (the re-thrown corrupt
  error is caught at line 173); `.ok none` = falsy content, comparison
  skipped; `.ok (some b)` = parsed backup. -/
  cloudContent : Except Unit (Option CloudBackup)
  /-- `getLastSyncTime config.url` (line 102). -/
  lastSyncTime : Except Unit Int
  /-- `compareWithCloud localTree cloudData` (line 131); the comparator
  itself lives in `comparator.ts`, not among the provided sources. -/
  identicalResult : Except Unit Bool
  /-- `isSameBrowser(localBrowserInfo.name, cloudBrowser)` (line 145). -/
  browserMatch : Bool
  /-- `setSyncState` in the identical-skip arm (line 155); a throw is
  caught at line 173 and falls through to the upload. -/
  skipSetState : Except Unit Unit
  /-- `bookmarkRepository.createCloudBackup()` (line 180). -/
  createBackup : Option String
  /-- `backup`/`backup.data`/`backup.metadata` all present (line 183). -/
  backupMetaOk : Bool
  /-- `backup.data` (line 187). -/
  backupData : BookmarkForest
  /-- `client.exists DIR` (line 193; `exists` swallows its own fetch
  errors and returns false, so it is a plain Bool). -/
  dirExists : Bool
  /-- `client.createDirectory DIR` (line 195). -/
  createDir : Option String
  /-- `getBackupFileInterval()` in minutes (line 199). -/
  backupIntervalMinutes : Int
  /-- `getLastBackupFileInfo()` (line 203). -/
  lastBackupInfo : Option BackupFileInfo
  /-- `Date.now()` at line 204. -/
  now : Int
  /-- `getBrowserInfo().name` (line 212). -/
  browserName : String
  /-- `client.putFile targetFilePath fileContent` (line 265). -/
  putFile : Option String
  /-- `client.deleteFile oldFileToDelete` (line 270); caught at
  line 272, never affecting the outcome. -/
  deleteOld : Option String
  /-- `saveLastBackupFileInfo` (line 280); caught at line 286. -/
  saveInfo : Option String
  /-- `fileManager.cleanOldBackups client 3` (line 295). -/
  cleanOld : Option String
  /-- `cacheManager.clearBackupListCache()` (line 299). -/
  clearCache : Option String
  /-- final `setSyncState` (line 302). -/
  finalSetState : Option String

/-- Outcome of the cloud-state check block (lines 80–176). -/
inductive CheckOutcome where
  | blocked
  | skippedDone
  | proceed
deriving DecidableEq

/-- Lines 80–176 of `smartPush`: fetch the latest cloud backup, block
automated pushes when the cloud is newer than the last sync, and skip
when content is identical (unless a manual same-browser push).  Any
throw inside the block is caught at line 173 and yields `proceed`. -/
def cloudCheck (env : PushEnv) (lockHolder : String) :
    CheckOutcome × List Ev :=
  match env.latestBackupPath with
  | .error _ => (.proceed, [])
  | .ok none => (.proceed, [])
  | .ok (some _) =>
    match env.cloudContent with
    | .error _ => (.proceed, [])
    | .ok none => (.proceed, [])
    | .ok (some cloud) =>
      let cloudTime := cloud.metadataTimestamp.getD 0
      match env.lastSyncTime with
      | .error _ => (.proceed, [])
      | .ok lastSync =>
        if cloudTime > lastSync ∧ lockHolder ≠ "manual" then
          (.blocked, [])
        else
          match env.identicalResult with
          | .error _ => (.proceed, [])
          | .ok false => (.proceed, [])
          | .ok true =>
            if lockHolder = "manual" ∧ env.browserMatch then
              (.proceed, [])
            else
              match env.skipSetState with
              | .ok _ => (.skippedDone, [.setSyncState "skip_identical"])
              | .error _ => (.proceed, [.setSyncState "skip_identical"])

/-- Lines 256–260: append `.gz` unless the name already ends in it. -/
def gzName (s : String) : String :=
  if strEndsWith s ".gz" then s else s ++ ".gz"

/-- The outer catch (lines 311–319): a thrown error becomes an error
result carrying `error.message || "上传失败"`. -/
def catchRes (m : String) : SyncResult :=
  ⟨false, "error", if m = "" then "上传失败" else m⟩

/-- Lines 178–310: build the archive, choose replace-vs-new-file by the
configured time window, upload (put before delete), persist tracking
metadata, prune, invalidate the list cache, update sync state. -/
def uploadStage (gen : String → Nat → Nat → String) (env : PushEnv) :
    SyncResult × List Ev :=
  match env.createBackup with
  | some m => (catchRes m, [])
  | none =>
    if ¬env.backupMetaOk then
      (⟨false, "error", "生成的备份数据无效"⟩, [])
    else if env.backupData.isEmpty then
      (⟨false, "error", "书签数据为空，无法上传"⟩, [])
    else
      let dirEvs : List Ev := if env.dirExists then [] else [.createDir DIR]
      if ¬env.dirExists ∧ env.createDir.isSome then
        (catchRes (env.createDir.getD ""), dirEvs)
      else
        let intervalMs := env.backupIntervalMinutes * 60 * 1000
        let count := countBookmarks env.backupData
        -- replace-vs-new decision (lines 219–244)
        let dec : String × Nat × Bool × Option BackupFileInfo :=
          match env.lastBackupInfo with
          | some info =>
            if env.now - info.createdAt < intervalMs then
              (gen env.browserName count (info.revisionNumber + 1),
                info.revisionNumber + 1, false, some info)
            else
              (gen env.browserName count 1, 1, true, none)
          | none => (gen env.browserName count 1, 1, true, none)
        let targetFileName := dec.1
        let rev := dec.2.1
        let isNewFile := dec.2.2.1
        let oldInfo := dec.2.2.2
        let path0 := DIR ++ "/" ++ targetFileName
        let finalFileName := gzName targetFileName
        let targetFilePath := gzName path0
        let evs1 := dirEvs ++ [Ev.putFile targetFilePath]
        match env.putFile with
        | some m => (catchRes m, evs1)
        | none =>
          let evs2 := evs1 ++
            (match oldInfo with
             | some info => [Ev.deleteFile info.filePath]
             | none => [])
          -- `createdAt: isNewFile ? now : (lastBackupInfo?.createdAt || now)`
          let createdAt :=
            if isNewFile then env.now
            else match oldInfo with
              | some info =>
                if info.createdAt = 0 then env.now else info.createdAt
              | none => env.now
          let evs3 := evs2 ++
            [Ev.saveBackupInfo finalFileName targetFilePath createdAt rev]
          let evs4 := evs3 ++ (if isNewFile then [Ev.cleanOldBackups] else [])
          if isNewFile ∧ env.cleanOld.isSome then
            (catchRes (env.cleanOld.getD ""), evs4)
          else
            let evs5 := evs4 ++ [Ev.clearListCache]
            match env.clearCache with
            | some m => (catchRes m, evs5)
            | none =>
              let evs6 := evs5 ++ [Ev.setSyncState "upload"]
              match env.finalSetState with
              | some m => (catchRes m, evs6)
              | none => (⟨true, "uploaded", "上传成功"⟩, evs6)

/-- The body of the `try` (lines 52–310): empty-tree guard, snapshot
attempt (failures swallowed, lines 75–78), cloud-state check, upload. -/
def pushBody (gen : String → Nat → Nat → String) (env : PushEnv)
    (lockHolder : String) : SyncResult × List Ev :=
  if countBookmarks env.localTree = 0 then
    (⟨false, "error", "本地书签为空"⟩, [])
  else
    match cloudCheck env lockHolder with
    | (.blocked, evs) =>
      (⟨false, "error", "云端有更新，请先拉取"⟩, Ev.snapshot :: evs)
    | (.skippedDone, evs) =>
      (⟨true, "skipped", "书签已同步，无需更新"⟩, Ev.snapshot :: evs)
    | (.proceed, evs) =>
      let r := uploadStage gen env
      (r.1, Ev.snapshot :: (evs ++ r.2))

/-- `smartPush` (lines 28–325): offline and lock guards run before the
`try`; the lock is released in the `finally` (lines 320–324) whenever
it was acquired here rather than inherited. -/
def smartPush (gen : String → Nat → Nat → String) (env : PushEnv)
    (lockHolder : String) (skipLock : Bool) : SyncResult × List Ev :=
  if ¬env.online then (⟨false, "error", "网络断开"⟩, [])
  else if ¬skipLock ∧ ¬env.lockAcquired then
    (⟨false, "error", "同步正在进行中"⟩, [])
  else
    let r := pushBody gen env lockHolder
    (r.1, r.2 ++ if skipLock then [] else [Ev.releaseLock lockHolder])

/-! ### Push-strategy claim theorems (C3, C4, C5, C9) -/

theorem list_get_append_cons {α : Type} (pre : List α) (x : α)
    (rest : List α) : (pre ++ x :: rest).get? pre.length = some x := by
  induction pre with
  | nil => rfl
  | cons a t ih => simpa using ih

theorem ordered_occurrence {α : Type} (pre mid post : List α) (x y : α) :
    ∃ i j, i < j ∧ (pre ++ x :: (mid ++ y :: post)).get? i = some x ∧
      (pre ++ x :: (mid ++ y :: post)).get? j = some y := by
  refine ⟨pre.length, pre.length + 1 + mid.length, by omega, ?_, ?_⟩
  · exact list_get_append_cons pre x (mid ++ y :: post)
  · have h : pre ++ x :: (mid ++ y :: post) = (pre ++ x :: mid) ++ y :: post := by
      simp
    have hl : (pre ++ x :: mid).length = pre.length + 1 + mid.length := by
      simp only [List.length_append, List.length_cons]
      omega
    rw [h, ← hl]
    exact list_get_append_cons (pre ++ x :: mid) y post

/-- C9: with a local tree containing zero URL-bearing leaves, a
lock-acquiring `smartPush` fails with the empty-tree message, performs
no remote write, and still releases the lock via the `finally` path. -/
theorem smartPush_empty_tree (gen : String → Nat → Nat → String)
    (env : PushEnv) (lockHolder : String)
    (honline : env.online = true) (hlock : env.lockAcquired = true)
    (hcount : countBookmarks env.localTree = 0) :
    smartPush gen env lockHolder false =
      (⟨false, "error", "本地书签为空"⟩, [Ev.releaseLock lockHolder]) ∧
    ∀ p, Ev.putFile p ∉ (smartPush gen env lockHolder false).2 ∧
      Ev.deleteFile p ∉ (smartPush gen env lockHolder false).2 := by
  have h1 : smartPush gen env lockHolder false =
      (⟨false, "error", "本地书签为空"⟩, [Ev.releaseLock lockHolder]) := by
    simp [smartPush, pushBody, honline, hlock, hcount]
  refine ⟨h1, ?_⟩
  intro p
  rw [h1]
  simp

/-- A filename generator standing in for
`fileManager.generateBackupFileName` in concrete witnesses. -/
def genW : String → Nat → Nat → String := fun b c r =>
  "bookmarks_20260101_000000_" ++ b ++ "_" ++ toString c ++ "_v" ++
    toString r ++ ".json"

/-- A fully-successful collaborator environment used by the concrete
witnesses; individual witnesses override single fields. -/
def envW : PushEnv :=
  { online := true
    lockAcquired := true
    localTree := .cons (.node "A" (some "https://a.com") .nil) .nil
    latestBackupPath := .ok none
    cloudContent := .ok none
    lastSyncTime := .ok 0
    identicalResult := .ok false
    browserMatch := false
    skipSetState := .ok ()
    createBackup := none
    backupMetaOk := true
    backupData := .cons (.node "A" (some "https://a.com") .nil) .nil
    dirExists := true
    createDir := none
    backupIntervalMinutes := 10
    lastBackupInfo := none
    now := 0
    browserName := "edge"
    putFile := none
    deleteOld := none
    saveInfo := none
    cleanOld := none
    clearCache := none
    finalSetState := none }

/-- Witness for `smartPush_empty_tree`. -/
theorem smartPush_empty_tree_witness :
    smartPush genW { envW with localTree := .nil } "auto-sync" false =
      (⟨false, "error", "本地书签为空"⟩, [Ev.releaseLock "auto-sync"]) :=
  (smartPush_empty_tree genW { envW with localTree := .nil } "auto-sync"
    (by decide) (by decide) (by decide)).1

/-- C4: when a cloud backup is strictly newer than the last recorded
sync for the endpoint, a push by any non-"manual" holder fails with the
remote-has-updates message and performs no remote write; the same
situation with the user-initiated "manual" holder lets the push
proceed to an upload. -/
theorem smartPush_blocks_when_cloud_newer :
    (∀ (gen : String → Nat → Nat → String) (env : PushEnv)
        (lockHolder : String) (skipLock : Bool) (p : String)
        (cloud : CloudBackup) (t : Int),
      env.online = true →
      (skipLock = true ∨ env.lockAcquired = true) →
      countBookmarks env.localTree ≠ 0 →
      env.latestBackupPath = .ok (some p) →
      env.cloudContent = .ok (some cloud) →
      env.lastSyncTime = .ok t →
      cloud.metadataTimestamp.getD 0 > t →
      lockHolder ≠ "manual" →
      (smartPush gen env lockHolder skipLock).1 =
          ⟨false, "error", "云端有更新，请先拉取"⟩ ∧
        ∀ q, Ev.putFile q ∉ (smartPush gen env lockHolder skipLock).2 ∧
          Ev.deleteFile q ∉ (smartPush gen env lockHolder skipLock).2) ∧
    (∀ (gen : String → Nat → Nat → String) (env : PushEnv)
        (skipLock : Bool) (p : String) (cloud : CloudBackup) (t : Int),
      env.online = true →
      (skipLock = true ∨ env.lockAcquired = true) →
      countBookmarks env.localTree ≠ 0 →
      env.latestBackupPath = .ok (some p) →
      env.cloudContent = .ok (some cloud) →
      env.lastSyncTime = .ok t →
      cloud.metadataTimestamp.getD 0 > t →
      env.identicalResult = .ok false →
      env.createBackup = none →
      env.backupMetaOk = true →
      env.backupData.isEmpty = false →
      env.dirExists = true →
      env.lastBackupInfo = none →
      env.putFile = none →
      env.cleanOld = none →
      env.clearCache = none →
      env.finalSetState = none →
      (smartPush gen env "manual" skipLock).1 =
          ⟨true, "uploaded", "上传成功"⟩ ∧
        ∃ q, Ev.putFile q ∈ (smartPush gen env "manual" skipLock).2) := by
  constructor
  · intro gen env lockHolder skipLock p cloud t honline hlock hcount hlb hcc
      hls hnew hman
    have hc : cloudCheck env lockHolder = (.blocked, []) := by
      simp [cloudCheck, hlb, hcc, hls, hnew, hman]
    have hfull : smartPush gen env lockHolder skipLock =
        (⟨false, "error", "云端有更新，请先拉取"⟩,
          Ev.snapshot ::
            (if skipLock then ([] : List Ev)
             else [Ev.releaseLock lockHolder])) := by
      rcases hlock with h | h <;>
        simp [smartPush, pushBody, hc, honline, hcount, h]
    refine ⟨by rw [hfull], ?_⟩
    intro q
    rw [hfull]
    cases skipLock <;> simp
  · intro gen env skipLock p cloud t honline hlock hcount hlb hcc hls hnew
      hid hcb hmeta hdata hdirex hinfo hput hclean hclear hfinal
    have hc : cloudCheck env "manual" = (.proceed, []) := by
      simp [cloudCheck, hlb, hcc, hls, hid]
    have hup1 : (uploadStage gen env).1 = ⟨true, "uploaded", "上传成功"⟩ := by
      simp [uploadStage, hcb, hmeta, hdata, hdirex, hinfo, hput, hclean,
        hclear, hfinal]
    have hup2 : ∃ q, Ev.putFile q ∈ (uploadStage gen env).2 := by
      simp only [uploadStage, hcb, hmeta, hdata, hdirex, hinfo, hput, hclean,
        hclear, hfinal]
      simp
    have hbody : pushBody gen env "manual" =
        ((uploadStage gen env).1, Ev.snapshot :: (uploadStage gen env).2) := by
      simp [pushBody, hc, hcount]
    have hpush : smartPush gen env "manual" skipLock =
        ((uploadStage gen env).1,
          (Ev.snapshot :: (uploadStage gen env).2) ++
            (if skipLock then ([] : List Ev)
             else [Ev.releaseLock "manual"])) := by
      rcases hlock with h | h <;> simp [smartPush, honline, h, hbody]
    refine ⟨by rw [hpush]; exact hup1, ?_⟩
    obtain ⟨q, hq⟩ := hup2
    exact ⟨q, by
      rw [hpush]
      exact List.mem_append_left _ (List.mem_cons_of_mem _ hq)⟩

/-- Witness for `smartPush_blocks_when_cloud_newer`: a cloud backup at
timestamp 100 against last sync 0 blocks an "auto-sync" push, while a
"manual" push in the same situation uploads. -/
theorem smartPush_blocks_when_cloud_newer_witness :
    (smartPush genW
        { envW with latestBackupPath := .ok (some "BookmarkSyncer/f.json.gz")
                    cloudContent := .ok (some ⟨some 100, .nil⟩)
                    lastSyncTime := .ok 0 }
        "auto-sync" false).1 =
      ⟨false, "error", "云端有更新，请先拉取"⟩ ∧
    (smartPush genW
        { envW with latestBackupPath := .ok (some "BookmarkSyncer/f.json.gz")
                    cloudContent := .ok (some ⟨some 100, .nil⟩)
                    lastSyncTime := .ok 0 }
        "manual" false).1 =
      ⟨true, "uploaded", "上传成功"⟩ :=
  ⟨(smartPush_blocks_when_cloud_newer.1 genW
      { envW with latestBackupPath := .ok (some "BookmarkSyncer/f.json.gz")
                  cloudContent := .ok (some ⟨some 100, .nil⟩)
                  lastSyncTime := .ok 0 }
      "auto-sync" false "BookmarkSyncer/f.json.gz" ⟨some 100, .nil⟩ 0
      rfl (Or.inr rfl) (by decide) rfl rfl rfl (by decide) (by decide)).1,
   (smartPush_blocks_when_cloud_newer.2 genW
      { envW with latestBackupPath := .ok (some "BookmarkSyncer/f.json.gz")
                  cloudContent := .ok (some ⟨some 100, .nil⟩)
                  lastSyncTime := .ok 0 }
      false "BookmarkSyncer/f.json.gz" ⟨some 100, .nil⟩ 0
      rfl (Or.inr rfl) (by decide) rfl rfl rfl (by decide) rfl rfl rfl
      (by decide) rfl rfl rfl rfl rfl rfl).1⟩

/-- C5: when the cloud content compares identical to the local tree
and the push is not a manual same-browser one, `smartPush` succeeds
with action "skipped", writes nothing remotely, and refreshes only the
sync-state timestamp (`skip_identical`); a manual same-browser push
with identical content uploads anyway. -/
theorem smartPush_skips_identical :
    (∀ (gen : String → Nat → Nat → String) (env : PushEnv)
        (lockHolder : String) (skipLock : Bool) (p : String)
        (cloud : CloudBackup) (t : Int),
      env.online = true →
      (skipLock = true ∨ env.lockAcquired = true) →
      countBookmarks env.localTree ≠ 0 →
      env.latestBackupPath = .ok (some p) →
      env.cloudContent = .ok (some cloud) →
      env.lastSyncTime = .ok t →
      ¬(cloud.metadataTimestamp.getD 0 > t ∧ lockHolder ≠ "manual") →
      env.identicalResult = .ok true →
      ¬(lockHolder = "manual" ∧ env.browserMatch = true) →
      env.skipSetState = .ok () →
      (smartPush gen env lockHolder skipLock).1 =
          ⟨true, "skipped", "书签已同步，无需更新"⟩ ∧
        Ev.setSyncState "skip_identical" ∈
          (smartPush gen env lockHolder skipLock).2 ∧
        (∀ q, Ev.putFile q ∉ (smartPush gen env lockHolder skipLock).2 ∧
          Ev.deleteFile q ∉ (smartPush gen env lockHolder skipLock).2 ∧
          Ev.createDir q ∉ (smartPush gen env lockHolder skipLock).2) ∧
        Ev.cleanOldBackups ∉ (smartPush gen env lockHolder skipLock).2 ∧
        ∀ f fp ca r, Ev.saveBackupInfo f fp ca r ∉
          (smartPush gen env lockHolder skipLock).2) ∧
    (∀ (gen : String → Nat → Nat → String) (env : PushEnv)
        (skipLock : Bool) (p : String) (cloud : CloudBackup) (t : Int),
      env.online = true →
      (skipLock = true ∨ env.lockAcquired = true) →
      countBookmarks env.localTree ≠ 0 →
      env.latestBackupPath = .ok (some p) →
      env.cloudContent = .ok (some cloud) →
      env.lastSyncTime = .ok t →
      env.identicalResult = .ok true →
      env.browserMatch = true →
      env.createBackup = none →
      env.backupMetaOk = true →
      env.backupData.isEmpty = false →
      env.dirExists = true →
      env.lastBackupInfo = none →
      env.putFile = none →
      env.cleanOld = none →
      env.clearCache = none →
      env.finalSetState = none →
      (smartPush gen env "manual" skipLock).1 =
          ⟨true, "uploaded", "上传成功"⟩ ∧
        ∃ q, Ev.putFile q ∈ (smartPush gen env "manual" skipLock).2) := by
  constructor
  · intro gen env lockHolder skipLock p cloud t honline hlock hcount hlb hcc
      hls hnb hid hmb hss
    have hc : cloudCheck env lockHolder =
        (.skippedDone, [Ev.setSyncState "skip_identical"]) := by
      simp [cloudCheck, hlb, hcc, hls, if_neg hnb, hid, if_neg hmb, hss]
    have hfull : smartPush gen env lockHolder skipLock =
        (⟨true, "skipped", "书签已同步，无需更新"⟩,
          Ev.snapshot :: Ev.setSyncState "skip_identical" ::
            (if skipLock then ([] : List Ev)
             else [Ev.releaseLock lockHolder])) := by
      rcases hlock with h | h <;>
        simp [smartPush, pushBody, hc, honline, hcount, h]
    refine ⟨by rw [hfull], ?_, ?_, ?_, ?_⟩
    · rw [hfull]; simp
    · intro q; rw [hfull]; cases skipLock <;> simp
    · rw [hfull]; cases skipLock <;> simp
    · intro f fp ca r; rw [hfull]; cases skipLock <;> simp
  · intro gen env skipLock p cloud t honline hlock hcount hlb hcc hls hid
      hbm hcb hmeta hdata hdirex hinfo hput hclean hclear hfinal
    have hc : cloudCheck env "manual" = (.proceed, []) := by
      simp [cloudCheck, hlb, hcc, hls, hid, hbm]
    have hup1 : (uploadStage gen env).1 = ⟨true, "uploaded", "上传成功"⟩ := by
      simp [uploadStage, hcb, hmeta, hdata, hdirex, hinfo, hput, hclean,
        hclear, hfinal]
    have hup2 : ∃ q, Ev.putFile q ∈ (uploadStage gen env).2 := by
      simp only [uploadStage, hcb, hmeta, hdata, hdirex, hinfo, hput, hclean,
        hclear, hfinal]
      simp
    have hbody : pushBody gen env "manual" =
        ((uploadStage gen env).1, Ev.snapshot :: (uploadStage gen env).2) := by
      simp [pushBody, hc, hcount]
    have hpush : smartPush gen env "manual" skipLock =
        ((uploadStage gen env).1,
          (Ev.snapshot :: (uploadStage gen env).2) ++
            (if skipLock then ([] : List Ev)
             else [Ev.releaseLock "manual"])) := by
      rcases hlock with h | h <;> simp [smartPush, honline, h, hbody]
    refine ⟨by rw [hpush]; exact hup1, ?_⟩
    obtain ⟨q, hq⟩ := hup2
    exact ⟨q, by
      rw [hpush]
      exact List.mem_append_left _ (List.mem_cons_of_mem _ hq)⟩

/-- Witness for `smartPush_skips_identical`: identical content skips an
"auto-sync" push but a manual same-browser push uploads. -/
theorem smartPush_skips_identical_witness :
    (smartPush genW
        { envW with latestBackupPath := .ok (some "BookmarkSyncer/f.json.gz")
                    cloudContent := .ok (some ⟨some 0, .nil⟩)
                    lastSyncTime := .ok 0
                    identicalResult := .ok true }
        "auto-sync" false).1 =
      ⟨true, "skipped", "书签已同步，无需更新"⟩ ∧
    (smartPush genW
        { envW with latestBackupPath := .ok (some "BookmarkSyncer/f.json.gz")
                    cloudContent := .ok (some ⟨some 0, .nil⟩)
                    lastSyncTime := .ok 0
                    identicalResult := .ok true
                    browserMatch := true }
        "manual" false).1 =
      ⟨true, "uploaded", "上传成功"⟩ :=
  ⟨(smartPush_skips_identical.1 genW
      { envW with latestBackupPath := .ok (some "BookmarkSyncer/f.json.gz")
                  cloudContent := .ok (some ⟨some 0, .nil⟩)
                  lastSyncTime := .ok 0
                  identicalResult := .ok true }
      "auto-sync" false "BookmarkSyncer/f.json.gz" ⟨some 0, .nil⟩ 0
      rfl (Or.inr rfl) (by decide) rfl rfl rfl (by decide) rfl (by decide)
      rfl).1,
   (smartPush_skips_identical.2 genW
      { envW with latestBackupPath := .ok (some "BookmarkSyncer/f.json.gz")
                  cloudContent := .ok (some ⟨some 0, .nil⟩)
                  lastSyncTime := .ok 0
                  identicalResult := .ok true
                  browserMatch := true }
      false "BookmarkSyncer/f.json.gz" ⟨some 0, .nil⟩ 0
      rfl (Or.inr rfl) (by decide) rfl rfl rfl rfl rfl rfl rfl (by decide)
      rfl rfl rfl rfl rfl rfl).1⟩

/-- C3: in the revision-replace branch (a tracked last backup file
exists and the push happens within the configured interval of its
`createdAt`), the new file's `putFile` occurs strictly before the
`deleteFile` of the previously tracked file, and the push still
succeeds — a `deleteFile` failure is caught and ignored, the
environment being unconstrained on `deleteOld`. -/
theorem smartPush_replace_put_before_delete
    (gen : String → Nat → Nat → String) (env : PushEnv)
    (lockHolder : String) (skipLock : Bool) (info : BackupFileInfo)
    (honline : env.online = true)
    (hlock : skipLock = true ∨ env.lockAcquired = true)
    (hcount : countBookmarks env.localTree ≠ 0)
    (hcheck : (cloudCheck env lockHolder).1 = .proceed)
    (hcb : env.createBackup = none)
    (hmeta : env.backupMetaOk = true)
    (hdata : env.backupData.isEmpty = false)
    (hdirex : env.dirExists = true)
    (hinfo : env.lastBackupInfo = some info)
    (hwin : env.now - info.createdAt < env.backupIntervalMinutes * 60 * 1000)
    (hput : env.putFile = none)
    (hclear : env.clearCache = none)
    (hfinal : env.finalSetState = none) :
    (∃ tp i j, i < j ∧
      (smartPush gen env lockHolder skipLock).2.get? i =
        some (Ev.putFile tp) ∧
      (smartPush gen env lockHolder skipLock).2.get? j =
        some (Ev.deleteFile info.filePath)) ∧
    (smartPush gen env lockHolder skipLock).1 =
      ⟨true, "uploaded", "上传成功"⟩ := by
  obtain ⟨evs, hc⟩ : ∃ evs, cloudCheck env lockHolder = (.proceed, evs) :=
    ⟨(cloudCheck env lockHolder).2, by rw [← hcheck]⟩
  obtain ⟨tp, rest, hup⟩ : ∃ tp rest, uploadStage gen env =
      (⟨true, "uploaded", "上传成功"⟩,
        Ev.putFile tp :: Ev.deleteFile info.filePath :: rest) := by
    refine ⟨gzName (DIR ++ "/" ++
        gen env.browserName (countBookmarks env.backupData)
          (info.revisionNumber + 1)),
      [Ev.saveBackupInfo
          (gzName (gen env.browserName (countBookmarks env.backupData)
            (info.revisionNumber + 1)))
          (gzName (DIR ++ "/" ++
            gen env.browserName (countBookmarks env.backupData)
              (info.revisionNumber + 1)))
          (if info.createdAt = 0 then env.now else info.createdAt)
          (info.revisionNumber + 1),
        Ev.clearListCache, Ev.setSyncState "upload"], ?_⟩
    simp [uploadStage, hcb, hmeta, hdata, hdirex, hinfo, hput, hclear,
      hfinal, if_pos hwin]
  have hbody : pushBody gen env lockHolder =
      (⟨true, "uploaded", "上传成功"⟩,
        Ev.snapshot :: (evs ++ Ev.putFile tp ::
          Ev.deleteFile info.filePath :: rest)) := by
    simp [pushBody, hc, hcount, hup]
  have hpush : smartPush gen env lockHolder skipLock =
      (⟨true, "uploaded", "上传成功"⟩,
        (Ev.snapshot :: evs) ++ Ev.putFile tp ::
          (([] : List Ev) ++ Ev.deleteFile info.filePath ::
            (rest ++ (if skipLock then ([] : List Ev)
              else [Ev.releaseLock lockHolder])))) := by
    rcases hlock with h | h <;> simp [smartPush, honline, h, hbody]
  refine ⟨?_, by rw [hpush]⟩
  obtain ⟨i, j, hij, hi, hj⟩ := ordered_occurrence (Ev.snapshot :: evs) []
    (rest ++ (if skipLock then ([] : List Ev)
      else [Ev.releaseLock lockHolder]))
    (Ev.putFile tp) (Ev.deleteFile info.filePath)
  exact ⟨tp, i, j, hij, by rw [hpush]; exact hi, by rw [hpush]; exact hj⟩

/-- Witness for `smartPush_replace_put_before_delete`: a push 0 ms
after a tracked file created at time 0 with a 10-minute interval takes
the replace branch. -/
theorem smartPush_replace_put_before_delete_witness :
    (∃ tp i j, i < j ∧
      (smartPush genW
        { envW with
            lastBackupInfo :=
              some ⟨"f.json.gz", "BookmarkSyncer/f.json.gz", 1, 1⟩ }
        "manual" false).2.get? i = some (Ev.putFile tp) ∧
      (smartPush genW
        { envW with
            lastBackupInfo :=
              some ⟨"f.json.gz", "BookmarkSyncer/f.json.gz", 1, 1⟩ }
        "manual" false).2.get? j =
          some (Ev.deleteFile "BookmarkSyncer/f.json.gz")) ∧
    (smartPush genW
        { envW with
            lastBackupInfo :=
              some ⟨"f.json.gz", "BookmarkSyncer/f.json.gz", 1, 1⟩ }
        "manual" false).1 = ⟨true, "uploaded", "上传成功"⟩ :=
  smartPush_replace_put_before_delete genW
    { envW with
        lastBackupInfo :=
          some ⟨"f.json.gz", "BookmarkSyncer/f.json.gz", 1, 1⟩ }
    "manual" false ⟨"f.json.gz", "BookmarkSyncer/f.json.gz", 1, 1⟩
    rfl (Or.inr rfl) (by decide) rfl rfl rfl rfl rfl rfl (by decide)
    rfl rfl rfl

/-! ### Compression utilities (`infrastructure/utils/compression.ts`)

`compressText`/`decompressText` pipe the text through `TextEncoder`,
`CompressionStream('gzip')` and a chunked `Uint8Array`→Base64
conversion.  The platform codecs (`TextEncoder`/`TextDecoder` and the
gzip streams, spec §6 "Codec collaborator") are inputs; `btoa`/`atob`
and the chunked conversion are embedded concretely. -/

/-- The Base64 alphabet used by `btoa`. -/
def b64chars : List Char :=
  "ABCDEFGHIJKLMNOPQRSTUVWXYZabcdefghijklmnopqrstuvwxyz0123456789+/".toList

/-- Index into the Base64 alphabet. -/
def sixToChar (n : Nat) : Char := b64chars.getD n 'A'

/-- Position of a character in the Base64 alphabet. -/
def charToSix (c : Char) : Option Nat := b64chars.findIdx? (fun x => x == c)

/-- `btoa`: encode a byte sequence (the char codes of the binary
string) into Base64 with `=` padding. -/
def encodeB64 : List Nat → List Char
  | [] => []
  | [b1] => [sixToChar (b1 / 4), sixToChar (b1 % 4 * 16), '=', '=']
  | [b1, b2] =>
    [sixToChar (b1 / 4), sixToChar (b1 % 4 * 16 + b2 / 16),
     sixToChar (b2 % 16 * 4), '=']
  | b1 :: b2 :: b3 :: rest =>
    sixToChar (b1 / 4) :: sixToChar (b1 % 4 * 16 + b2 / 16) ::
      sixToChar (b2 % 16 * 4 + b3 / 64) :: sixToChar (b3 % 64) ::
      encodeB64 rest

/-- `atob`: decode a padded Base64 string into the byte sequence, or
`none` (the thrown `InvalidCharacterError`) on malformed input. -/
def decodeB64 : List Char → Option (List Nat)
  | [] => some []
  | c1 :: c2 :: c3 :: c4 :: rest =>
    match charToSix c1, charToSix c2 with
    | some n1, some n2 =>
      if c3 = '=' then
        if c4 = '=' ∧ rest = [] then some [n1 * 4 + n2 / 16] else none
      else
        match charToSix c3 with
        | some n3 =>
          if c4 = '=' then
            if rest = [] then
              some [n1 * 4 + n2 / 16, n2 % 16 * 16 + n3 / 4]
            else none
          else
            match charToSix c4, decodeB64 rest with
            | some n4, some tail =>
              some ((n1 * 4 + n2 / 16) :: (n2 % 16 * 16 + n3 / 4) ::
                (n3 % 4 * 64 + n4) :: tail)
            | _, _ => none
        | none => none
    | _, _ => none
  | _ => none

/-- The chunked loop of `uint8ArrayToBase64` (compression.ts lines
10–18): build the binary string 8192 bytes at a time.  The fuel
argument bounds the loop iterations (one byte consumed per iteration
is enough fuel, as each iteration consumes 8192). -/
def chunksGo : Nat → List Nat → List Nat
  | _, [] => []
  | 0, _ => []
  | fuel + 1, l => l.take 8192 ++ chunksGo fuel (l.drop 8192)

/-- The binary string (as char codes) assembled chunk by chunk. -/
def toBinaryChunks (l : List Nat) : List Nat := chunksGo l.length l

/-- `uint8ArrayToBase64` (lines 10–18): chunked conversion with chunk
size 8192, then `btoa`. -/
def uint8ArrayToBase64 (bytes : List Nat) : List Char :=
  encodeB64 (toBinaryChunks bytes)

/-- `compressText` (lines 25–64): UTF-8-encode, gzip through the
stream, concatenate the chunks, and Base64-encode with the chunked
converter.  The platform text encoder and gzip transform are inputs. -/
def compressText (utf8Encode : String → List Nat)
    (gzip : List Nat → List Nat) (s : String) : String :=
  String.mk (uint8ArrayToBase64 (gzip (utf8Encode s)))

/-- `decompressText` (lines 71–119): `atob` (throw on bad Base64 =
`none`), gunzip, decode. -/
def decompressText (utf8Decode : List Nat → String)
    (gunzip : List Nat → List Nat) (b64 : String) : Option String :=
  match decodeB64 b64.toList with
  | none => none
  | some bytes => some (utf8Decode (gunzip bytes))

theorem charToSix_sixToChar : ∀ n, n < 64 →
    charToSix (sixToChar n) = some n := by decide

theorem sixToChar_ne_pad : ∀ n, n < 64 → sixToChar n ≠ '=' := by decide

theorem decodeB64_encodeB64 (l : List Nat) :
    (∀ b ∈ l, b < 256) → decodeB64 (encodeB64 l) = some l := by
  induction l using encodeB64.induct with
  | case1 => intro _; simp [encodeB64, decodeB64]
  | case2 b1 =>
    intro h
    have hb : b1 < 256 := h b1 (by simp)
    have e1 := charToSix_sixToChar (b1 / 4) (by omega)
    have e2 := charToSix_sixToChar (b1 % 4 * 16) (by omega)
    simp [encodeB64, decodeB64, e1, e2]
    omega
  | case3 b1 b2 =>
    intro h
    have hb1 : b1 < 256 := h b1 (by simp)
    have hb2 : b2 < 256 := h b2 (by simp)
    have e1 := charToSix_sixToChar (b1 / 4) (by omega)
    have e2 := charToSix_sixToChar (b1 % 4 * 16 + b2 / 16) (by omega)
    have e3 := charToSix_sixToChar (b2 % 16 * 4) (by omega)
    have ne3 := sixToChar_ne_pad (b2 % 16 * 4) (by omega)
    simp [encodeB64, decodeB64, e1, e2, e3, ne3]
    omega
  | case4 b1 b2 b3 rest ih =>
    intro h
    have hb1 : b1 < 256 := h b1 (by simp)
    have hb2 : b2 < 256 := h b2 (by simp)
    have hb3 : b3 < 256 := h b3 (by simp)
    have e1 := charToSix_sixToChar (b1 / 4) (by omega)
    have e2 := charToSix_sixToChar (b1 % 4 * 16 + b2 / 16) (by omega)
    have e3 := charToSix_sixToChar (b2 % 16 * 4 + b3 / 64) (by omega)
    have e4 := charToSix_sixToChar (b3 % 64) (by omega)
    have ne3 := sixToChar_ne_pad (b2 % 16 * 4 + b3 / 64) (by omega)
    have ne4 := sixToChar_ne_pad (b3 % 64) (by omega)
    have htail := ih (fun b hb => h b (by simp [hb]))
    simp [encodeB64, decodeB64, e1, e2, e3, e4, ne3, ne4, htail]
    omega

theorem chunksGo_eq (fuel : Nat) :
    ∀ l : List Nat, l.length ≤ fuel → chunksGo fuel l = l := by
  induction fuel with
  | zero =>
    intro l hl
    cases l with
    | nil => rfl
    | cons b rest => simp at hl
  | succ fuel ih =>
    intro l hl
    cases l with
    | nil => rfl
    | cons b rest =>
      show (b :: rest).take 8192 ++ chunksGo fuel ((b :: rest).drop 8192) =
        b :: rest
      have hdl : ((b :: rest).drop 8192).length ≤ fuel := by
        simp only [List.length_drop]
        simp at hl ⊢
        omega
      rw [ih _ hdl, List.take_append_drop]

theorem toBinaryChunks_eq (l : List Nat) : toBinaryChunks l = l :=
  chunksGo_eq l.length l le_rfl

theorem sixToChar_mem (n : Nat) : sixToChar n ∈ b64chars := by
  by_cases h : n < 64
  · have hall : ∀ m, m < 64 → sixToChar m ∈ b64chars := by decide
    exact hall n h
  · have h64 : b64chars.length ≤ n := by
      have hlen : b64chars.length = 64 := by decide
      omega
    unfold sixToChar
    rw [List.getD_eq_default _ _ h64]
    decide

theorem encodeB64_valid (l : List Nat) :
    ∀ c ∈ encodeB64 l, c ∈ b64chars ∨ c = '=' := by
  induction l using encodeB64.induct with
  | case1 => intro c hc; simp [encodeB64] at hc
  | case2 b1 =>
    intro c hc
    simp only [encodeB64, List.mem_cons] at hc
    rcases hc with h | h | h | h | h
    · exact h ▸ Or.inl (sixToChar_mem _)
    · exact h ▸ Or.inl (sixToChar_mem _)
    · exact Or.inr h
    · exact Or.inr h
    · simp at h
  | case3 b1 b2 =>
    intro c hc
    simp only [encodeB64, List.mem_cons] at hc
    rcases hc with h | h | h | h | h
    · exact h ▸ Or.inl (sixToChar_mem _)
    · exact h ▸ Or.inl (sixToChar_mem _)
    · exact h ▸ Or.inl (sixToChar_mem _)
    · exact Or.inr h
    · simp at h
  | case4 b1 b2 b3 rest ih =>
    intro c hc
    simp only [encodeB64, List.mem_cons] at hc
    rcases hc with h | h | h | h | h
    · exact h ▸ Or.inl (sixToChar_mem _)
    · exact h ▸ Or.inl (sixToChar_mem _)
    · exact h ▸ Or.inl (sixToChar_mem _)
    · exact h ▸ Or.inl (sixToChar_mem _)
    · exact ih c h

/-- C7: for every string, decompressing the compressed form restores
the string (`none` never occurs), and the compressed form is a valid
Base64 string built by the chunk-size-8192 conversion — the chunked
conversion is proved equal to the direct byte-for-byte one.  The
platform codecs are inputs constrained to be inverses on this input,
with gzip output being bytes. -/
theorem compress_roundtrip_and_valid (s : String)
    (utf8Encode : String → List Nat) (utf8Decode : List Nat → String)
    (gzip gunzip : List Nat → List Nat)
    (hbytes : ∀ b ∈ gzip (utf8Encode s), b < 256)
    (hgz : gunzip (gzip (utf8Encode s)) = utf8Encode s)
    (hutf : utf8Decode (utf8Encode s) = s) :
    decompressText utf8Decode gunzip (compressText utf8Encode gzip s) =
      some s ∧
    (∀ c ∈ (compressText utf8Encode gzip s).toList,
      c ∈ b64chars ∨ c = '=') ∧
    uint8ArrayToBase64 (gzip (utf8Encode s)) =
      encodeB64 (gzip (utf8Encode s)) := by
  have hch : toBinaryChunks (gzip (utf8Encode s)) = gzip (utf8Encode s) :=
    toBinaryChunks_eq _
  have hlist : (compressText utf8Encode gzip s).toList =
      encodeB64 (gzip (utf8Encode s)) := by
    show (String.mk (uint8ArrayToBase64 (gzip (utf8Encode s)))).toList = _
    simp [uint8ArrayToBase64, hch]
  refine ⟨?_, ?_, ?_⟩
  · simp only [decompressText, hlist, decodeB64_encodeB64 _ hbytes, hgz, hutf]
  · rw [hlist]
    exact encodeB64_valid _
  · simp [uint8ArrayToBase64, hch]

/-- Witness for `compress_roundtrip_and_valid` with identity gzip and
char-code text codecs on a concrete string. -/
theorem compress_roundtrip_and_valid_witness :
    decompressText (fun l => String.mk (l.map Char.ofNat)) id
        (compressText (fun s => s.toList.map Char.toNat) id "ab") =
      some "ab" :=
  (compress_roundtrip_and_valid "ab" (fun s => s.toList.map Char.toNat)
    (fun l => String.mk (l.map Char.ofNat)) id id
    (by decide) (by decide) (by decide)).1

/-! ### WebDAV `listFiles` status handling (C6)

`WebDAVClient.listFiles` (in the same source file as the compression
utilities, lines 290–450): its `try` block throws an authentication
error on 401/403, returns `[]` on 404 and on other non-success
statuses, and otherwise returns the parsed multistatus body — but the
block's own outer `catch` (lines 446–449) catches every error,
including the authentication error it itself threw, and returns `[]`. -/

/-- A directory-listing entry. -/
structure WebDAVFile where
  name : String
  path : String
  lastModified : Int
  size : Int
deriving DecidableEq

/-- `fetch` `Response.ok`: status in 200–299. -/
def respOk (status : Nat) : Bool := 200 ≤ status && status < 300

/-- The `try` block of `listFiles` (lines 291–445), with the XML
parsing abstracted into the `parsed` input: 401/403 → thrown auth
error (lines 302–308); 404 → empty list (lines 310–313); other
non-success, non-207 → empty list (lines 315–320); success → the
parsed files. -/
def listFilesBody (status : Nat) (parsed : List WebDAVFile) :
    Except String (List WebDAVFile) :=
  if status = 401 ∨ status = 403 then
    .error "WebDAV 认证失败（用户名/密码或权限不正确）"
  else if status = 404 then .ok []
  else if ¬(respOk status = true) ∧ status ≠ 207 then .ok []
  else .ok parsed

/-- `listFiles` as callers see it: the outer `catch` (lines 446–449)
turns every thrown error — including the authentication error — into
an empty list. -/
def listFiles (status : Nat) (parsed : List WebDAVFile) :
    List WebDAVFile :=
  match listFilesBody status parsed with
  | .ok fs => fs
  | .error _ => []

/-- C6: `listFiles` computes the intended responses — the auth error is
thrown inside the `try` on 401/403, 404 yields `[]`, other non-success
yields `[]`, 207/2xx yield the parsed list — but the thrown
authentication error never reaches the caller: the outer `catch`
swallows it and callers receive an empty list, indistinguishable from
"no backups", contradicting the comment at lines 304–307 and the spec. -/
theorem listFiles_swallows_auth_error :
    listFilesBody 401 [⟨"f", "BookmarkSyncer/f", 0, 1⟩] =
      .error "WebDAV 认证失败（用户名/密码或权限不正确）" ∧
    listFiles 401 [⟨"f", "BookmarkSyncer/f", 0, 1⟩] = [] ∧
    listFiles 403 [⟨"f", "BookmarkSyncer/f", 0, 1⟩] = [] ∧
    (∀ parsed, listFiles 404 parsed = []) ∧
    (∀ parsed, listFiles 500 parsed = []) ∧
    (∀ parsed, listFiles 207 parsed = parsed) ∧
    (∀ parsed, listFiles 200 parsed = parsed) := by
  refine ⟨rfl, rfl, rfl, fun parsed => rfl, fun parsed => rfl,
    fun parsed => ?_, fun parsed => ?_⟩ <;>
    simp [listFiles, listFilesBody, respOk]

end BookmarkSyncer
